import Mathlib

/-!
Verification development for the image-library namespace engine of this
repository.  Two implementations of the mutation engine exist in the source:

* a client-side tree engine operating on a nested `FileSystemItem[]` value
  (`components/file-explorer.tsx`: `addFolder`, `uploadImages`,
  `handleItemClick`, `handleDrop`, `moveSelectedItems`, `deleteSelectedItems`);
* a server-side engine operating on flat database rows
  (`createFolder`, `uploadFile`, `renameItem`, `moveItem`, `deleteItem`
  server actions).

Both are embedded below as pure Lean functions, faithfully following the
JavaScript/SQL semantics of the source, including the `Object.assign`
behaviour on arrays, the first-occurrence semantics of `String.replace`,
and the exactly-one-row semantics of the Supabase `.single()` query.
-/

namespace ImgLib

/-! ## String helpers mirroring the JavaScript string operations -/

/-- JS `pre ++ rest` prefix test on character lists: `startsWithL pre s` is
`true` iff `s` begins with `pre`.  Used to model `String.prototype.startsWith`
and the SQL `LIKE 'p/%'` queries (exact for patterns free of `%`/`_`). -/
def startsWithL : List Char → List Char → Bool
  | [], _ => true
  | _ :: _, [] => false
  | c :: cs, d :: ds => c = d && startsWithL cs ds

/-- String form of `startsWithL`: models `s.startsWith(pre)` in JS. -/
def strStartsWith (s pre : String) : Bool :=
  startsWithL pre.data s.data

/-- Drop the first `n` characters of a string. -/
def strDrop (s : String) (n : Nat) : String :=
  ⟨s.data.drop n⟩

/-- JS `s.replace(pat, repl)` on character lists: replaces only the FIRST
occurrence of `pat`, and leaves `s` unchanged when `pat` does not occur. -/
def replaceFirstL (pat repl : List Char) : List Char → List Char
  | [] => if startsWithL pat [] then repl else []
  | c :: rest =>
    if startsWithL pat (c :: rest) then repl ++ (c :: rest).drop pat.length
    else c :: replaceFirstL pat repl rest

/-- JS `s.replace(pat, repl)` with a string pattern (first occurrence only). -/
def jsReplaceFirst (s pat repl : String) : String :=
  ⟨replaceFirstL pat.data repl.data s.data⟩

/-- JS `s.replace(/\/\//g, "/")`: one left-to-right pass collapsing each
non-overlapping `"//"` to `"/"`. -/
def collapseSlashesL : List Char → List Char
  | '/' :: '/' :: rest => '/' :: collapseSlashesL rest
  | c :: rest => c :: collapseSlashesL rest
  | [] => []

/-- String form of `collapseSlashesL`. -/
def collapseSlashes (s : String) : String :=
  ⟨collapseSlashesL s.data⟩

/-- JS `s.trim()` (whitespace stripped from both ends). -/
def jsTrim (s : String) : String :=
  ⟨((s.data.dropWhile Char.isWhitespace).reverse.dropWhile Char.isWhitespace).reverse⟩

/-- The path computation used throughout the source:
`parentPath === "/" ? "/" + name : parentPath + "/" + name`. -/
def childPath (parentPath name : String) : String :=
  if parentPath = "/" then "/" ++ name else parentPath ++ "/" ++ name

theorem startsWithL_eq_true {pre s : List Char} (h : startsWithL pre s = true) :
    s = pre ++ s.drop pre.length := by
  induction pre generalizing s with
  | nil => simp
  | cons c cs ih =>
    cases s with
    | nil => simp [startsWithL] at h
    | cons d ds =>
      simp only [startsWithL, Bool.and_eq_true, decide_eq_true_eq] at h
      obtain ⟨rfl, h2⟩ := h
      simpa using ih h2

/-- When `pat` is a prefix of `s`, JS `s.replace(pat, repl)` is exactly the
prefix rewrite `repl ++ (s minus its first pat.length characters)`. -/
theorem replaceFirstL_of_startsWith {pat s : List Char} (repl : List Char)
    (h : startsWithL pat s = true) :
    replaceFirstL pat repl s = repl ++ s.drop pat.length := by
  cases s with
  | nil =>
    cases pat with
    | nil => simp [replaceFirstL, startsWithL]
    | cons c cs => simp [startsWithL] at h
  | cons c rest => simp [replaceFirstL, h]

theorem jsReplaceFirst_of_strStartsWith {s pat : String} (repl : String)
    (h : strStartsWith s pat = true) :
    jsReplaceFirst s pat repl = repl ++ strDrop s pat.length := by
  have := @replaceFirstL_of_startsWith pat.data s.data repl.data h
  simp only [jsReplaceFirst, this]
  rfl

/-- `startsWithL (a ++ b) s` implies `startsWithL a s`. -/
theorem startsWithL_of_append {a b s : List Char}
    (h : startsWithL (a ++ b) s = true) : startsWithL a s = true := by
  induction a generalizing s with
  | nil => simp [startsWithL]
  | cons c cs ih =>
    cases s with
    | nil => simp [startsWithL] at h
    | cons d ds =>
      simp only [List.cons_append, startsWithL, Bool.and_eq_true] at h ⊢
      exact ⟨h.1, ih h.2⟩

theorem strStartsWith_of_append {s a b : String}
    (h : strStartsWith s (a ++ b) = true) : strStartsWith s a = true := by
  have hd : (a ++ b).data = a.data ++ b.data := rfl
  unfold strStartsWith at h ⊢
  rw [hd] at h
  exact startsWithL_of_append h

/-! ## The client-side tree model (`FileSystemItem` of `types/file-system.ts`)

In the client code every node of kind `"folder"` carries a `children` array
(possibly empty — note that in JS an empty array is truthy, so
`if (item.children)` holds for it), and nodes of kind `"image"` never do.
The two kinds are therefore modelled as two constructors; the image-only
attributes `url` and `size` are carried on the image constructor
(`width`/`height`/`blobPath` are never read by the operations under study
and are omitted). -/

inductive Item : Type where
  | image (id name path : String) (url : Option String) (size : Option Nat) : Item
  | folder (id name path : String) (children : List Item) : Item

/-- The `id` field of a node. -/
def Item.idOf : Item → String
  | .image i _ _ _ _ => i
  | .folder i _ _ _ => i

/-- The `name` field of a node. -/
def Item.nameOf : Item → String
  | .image _ n _ _ _ => n
  | .folder _ n _ _ => n

/-- The `path` field of a node. -/
def Item.pathOf : Item → String
  | .image _ _ p _ _ => p
  | .folder _ _ p _ => p

/-- `item.type === "folder"`. -/
def Item.isFolder : Item → Bool
  | .image _ _ _ _ _ => false
  | .folder _ _ _ _ => true

/-- Pre-order traversal of the whole tree (the spec's `flatten()`). -/
def flattenL : List Item → List Item
  | [] => []
  | .image i n p u s :: rest => .image i n p u s :: flattenL rest
  | .folder i n p cs :: rest => .folder i n p cs :: (flattenL cs ++ flattenL rest)

/-- All node paths of a tree, in pre-order. -/
def pathsOf (fs : List Item) : List String :=
  (flattenL fs).map Item.pathOf

/-- The spec's path-uniqueness invariant: no two nodes share the same `path`. -/
def uniquePaths (fs : List Item) : Prop :=
  (pathsOf fs).Nodup

/-! ### `removeItem` (the closure shared by `handleDrop`, `moveSelectedItems`
and `deleteSelectedItems` in `file-explorer.tsx`)

The JS closure first filters the current level by `item.path === target`
and then recurses into the children of each survivor, assigning the filtered
children back in place.  Interleaving the filter with the recursion
element-by-element produces the same list, which is what `removeAllP` does. -/

/-- Net removal effect of the JS `removeItem` closure: every node whose
`path` equals `target` is dropped, together with its whole subtree; the
children of the survivors are cleansed recursively. -/
def removeAllP (target : String) : List Item → List Item
  | [] => []
  | .image i n p u s :: rest =>
    if p = target then removeAllP target rest
    else .image i n p u s :: removeAllP target rest
  | .folder i n p cs :: rest =>
    if p = target then removeAllP target rest
    else .folder i n p (removeAllP target cs) :: removeAllP target rest

/-- Cleansing of a single surviving node: the in-place
`newItems[i].children = removeItem(newItems[i].children)` of the source. -/
def cleanseItem (target : String) : Item → Item
  | .image i n p u s => .image i n p u s
  | .folder i n p cs => .folder i n p (removeAllP target cs)

/-- The last element of the current level whose `path` equals `target`
(the JS filter callback overwrites `removedItem` on every match, so the
last one sticks). -/
def lastMatch (target : String) : List Item → Option Item
  | [] => none
  | it :: rest =>
    match lastMatch target rest with
    | some r => some r
    | none => if it.pathOf = target then some it else none

/-- The `removedItem` produced by the recursion over the survivors' children:
the loop over `newItems` overwrites `removedItem` whenever a recursive call
removed something, so a match found under a later survivor wins, and any such
deep match takes precedence over the current level's filter matches. -/
def removedDeep (target : String) : List Item → Option Item
  | [] => none
  | it :: rest =>
    match removedDeep target rest with
    | some r => some r
    | none =>
      if it.pathOf = target then none
      else
        match it with
        | .image _ _ _ _ _ => none
        | .folder _ _ _ cs =>
          match removedDeep target cs with
          | some r => some r
          | none => lastMatch target cs

/-- The `removedItem` returned by the JS `removeItem` closure. -/
def removedOf (target : String) (items : List Item) : Option Item :=
  match removedDeep target items with
  | some r => some r
  | none => lastMatch target items

/-! ### The `Object.assign(newFileSystem, updatedFileSystem)` step

`Object.assign` on arrays copies the index properties of the source but not
its (non-enumerable) `length`, so when the filtered array is shorter than the
original — i.e. whenever a top-level node was removed — the elements beyond
the source's length survive at their old positions.  Those trailing elements
are the original objects; their children were cleansed in place if they were
survivors of the filter, and untouched if they themselves matched `target`
(a filtered-out object is never traversed). -/

/-- Net effect on the tree of one
`removeItem` + `Object.assign(newFileSystem, updatedFileSystem)` round. -/
def jsRemovePass (target : String) (cur : List Item) : List Item :=
  let filtered := removeAllP target cur
  filtered ++
    (cur.drop filtered.length).map
      (fun it => if it.pathOf = target then it else cleanseItem target it)

/-! ### `updatePaths` (path rewrite of a moved item and its subtree) -/

mutual

/-- The `updatePaths` closure of `handleDrop`/`moveSelectedItems`: recomputes
the node's path as `newParentPath === "/" ? "/" + name : newParentPath + "/"
+ name` and recurses into the children of folders with the recomputed path as
the new parent path. -/
def updatePaths (newParentPath : String) : Item → Item
  | .image i n _ u s => .image i n (childPath newParentPath n) u s
  | .folder i n _ cs =>
    .folder i n (childPath newParentPath n) (updatePathsList (childPath newParentPath n) cs)

/-- `children.map(child => updatePaths(child, newPath))`. -/
def updatePathsList (newParentPath : String) : List Item → List Item
  | [] => []
  | c :: rest => updatePaths newParentPath c :: updatePathsList newParentPath rest

end

/-- Pre-order insertion used by `addFolderToPath`, `addImagesToPath` and
`addItemsToTarget`: the first folder whose `path` equals `parentPath` gets
`newItems` appended to its children; the returned flag reports whether a
target folder was found (when it is `false` the tree is unchanged and the
new items are silently dropped by the callers). -/
def addItemsAt (parentPath : String) (newItems : List Item) :
    List Item → List Item × Bool
  | [] => ([], false)
  | .folder i n p cs :: rest =>
    if p = parentPath then (.folder i n p (cs ++ newItems) :: rest, true)
    else
      match addItemsAt parentPath newItems cs with
      | (cs', true) => (.folder i n p cs' :: rest, true)
      | (_, false) =>
        match addItemsAt parentPath newItems rest with
        | (rest', f) => (.folder i n p cs :: rest', f)
  | it :: rest =>
    match addItemsAt parentPath newItems rest with
    | (rest', f) => (it :: rest', f)

/-! ### Delete: match count of the `removeItem` closure in
`deleteSelectedItems` (the `deletedCount++` in the filter callback).
Nodes inside a removed subtree are never traversed, so only outermost
matches are counted. -/

/-- Number of `deletedCount++` increments performed by one `removeItem`
traversal of `deleteSelectedItems`. -/
def delCount (target : String) : List Item → Nat
  | [] => 0
  | .image _ _ p _ _ :: rest =>
    (if p = target then 1 else 0) + delCount target rest
  | .folder _ _ p cs :: rest =>
    (if p = target then 1 else delCount target cs) + delCount target rest

/-! ## Client-side mutation operations (`file-explorer.tsx`) -/

/-- `addFolder`: rejects only an all-whitespace name; computes the new path
with `childPath`; pushes at top level when the parent is the root, otherwise
inserts via the pre-order search `addFolderToPath`.  No duplicate-path check
is performed, the success toast is shown unconditionally, and a missing
parent silently drops the new folder.  The fresh id (`Date.now().toString()`
in the source) is passed in as `newId`.  Returns the new tree and whether
the name validation passed. -/
def addFolder (fs : List Item) (name parentPath newId : String) :
    List Item × Bool :=
  if jsTrim name = "" then (fs, false)
  else
    let newFolder : Item := .folder newId name (childPath parentPath name) []
    if parentPath = "/" then (fs ++ [newFolder], true)
    else ((addItemsAt parentPath [newFolder] fs).1, true)

/-- One successfully blob-uploaded file of `uploadImages`: its `name` and
`size`, the id generated for it (`Date.now().toString() + i`) and the blob
`url` returned by `uploadToBlob`.  Files whose blob upload fails are skipped
by the source without touching the tree, so they are simply absent here. -/
structure BlobUpload where
  name : String
  size : Nat
  newId : String
  url : String

/-- `uploadImages`: builds one image node per uploaded file with path
`(uploadPath === "/" ? "" : uploadPath) + "/" + name` (double slashes
collapsed), then appends them all to the root list or to the first folder
matching `uploadPath`.  No duplicate-path check of any kind is performed. -/
def uploadImages (fs : List Item) (files : List BlobUpload)
    (uploadPath : String) : List Item :=
  let newImages := files.map (fun f =>
    Item.image f.newId f.name
      (collapseSlashes ((if uploadPath = "/" then "" else uploadPath) ++ "/" ++ f.name))
      (some f.url) (some f.size))
  if newImages.isEmpty then fs
  else if uploadPath = "/" then fs ++ newImages
  else (addItemsAt uploadPath newImages fs).1

/-! ### Selection state machine (`handleItemClick`) -/

/-- The fields of the React `MouseEvent` read by `handleItemClick`. -/
structure ClickEvent where
  detail : Nat
  ctrlKey : Bool
  metaKey : Bool
  shiftKey : Bool

/-- The selection-related component state of `FileExplorer`. -/
structure ExplorerSel where
  currentPath : String
  selectedItem : Option Item
  selectedItems : List Item
  lastSelectedId : Option String

/-- `handleItemClick`: double-click navigation into folders, plain-click
single selection (which also sets the range anchor `lastSelectedId`),
ctrl/cmd-click toggling (which moves the anchor), and shift-click range
selection over the currently displayed list `displayed`
(= `getCurrentFolderContents()`), which does NOT move the anchor.
A `lastSelectedId` that is `null` or the empty string (both falsy in JS)
disables the shift branch. -/
def handleItemClick (e : ClickEvent) (item : Item) (st : ExplorerSel)
    (displayed : List Item) : ExplorerSel :=
  if e.detail = 2 ∧ item.isFolder then
    { st with currentPath := item.pathOf, selectedItem := some item,
              selectedItems := [] }
  else if ¬ e.ctrlKey ∧ ¬ e.metaKey ∧ ¬ e.shiftKey then
    { st with selectedItem := some item, selectedItems := [item],
              lastSelectedId := some item.idOf }
  else if e.ctrlKey ∨ e.metaKey then
    let isSelected := st.selectedItems.any (fun s => s.idOf = item.idOf)
    { st with
      selectedItems :=
        if isSelected then st.selectedItems.filter (fun s => s.idOf ≠ item.idOf)
        else st.selectedItems ++ [item],
      selectedItem := some item,
      lastSelectedId := some item.idOf }
  else
    match st.lastSelectedId with
    | none => st
    | some anchor =>
      if e.shiftKey ∧ anchor ≠ "" then
        match displayed.findIdx? (fun i => i.idOf = anchor),
              displayed.findIdx? (fun i => i.idOf = item.idOf) with
        | some li, some ci =>
          { st with
            selectedItems := ((displayed.drop (min li ci)).take (max li ci + 1 - min li ci)),
            selectedItem := some item }
        | _, _ => st
      else st

/-! ### Move (`handleDrop` and `moveSelectedItems`) -/

/-- Outcome reported by the move and drop handlers through their early
returns and toasts. -/
inductive MoveOutcome where
  | noItems
  | selfDrop
  | circularMove
  | nothingMoved
  | moved (count : Nat)
deriving DecidableEq

/-- The shared body of `handleDrop` and `moveSelectedItems` after their
guards: for each selected item, one `removeItem` +
`Object.assign` round (`jsRemovePass`) and, when a node was removed,
`updatePaths` relative to the destination; finally all moved items are
pushed at root or appended to the first folder matching `dest`
(`addItemsToTarget`) — if no such folder remains the moved items are lost.
`setFileSystem` runs only when at least one item was removed. -/
def applyMove (fs sel : List Item) (dest : String) : List Item × MoveOutcome :=
  let step := fun (acc : List Item × List Item) (target : String) =>
    let cur := acc.1
    match removedOf target cur with
    | none => (cur, acc.2)
    | some removed => (jsRemovePass target cur, acc.2 ++ [updatePaths dest removed])
  let res := sel.foldl (fun acc s => step acc s.pathOf) (fs, [])
  if res.2.isEmpty then (fs, .nothingMoved)
  else if dest = "/" then (res.1 ++ res.2, .moved res.2.length)
  else ((addItemsAt dest res.2 res.1).1, .moved res.2.length)

/-- `moveSelectedItems` (the Move dialog): empty-selection guard, then the
cycle guard `item.type === "folder" && moveToPath.startsWith(item.path +
"/")` over all selected items rejecting the whole batch, then the shared
move body.  There is no check that the destination equals a selected item's
own path. -/
def moveSelectedItems (fs sel : List Item) (moveToPath : String) :
    List Item × MoveOutcome :=
  if sel.isEmpty then (fs, .noItems)
  else if sel.any (fun it => it.isFolder && strStartsWith moveToPath (it.pathOf ++ "/")) then
    (fs, .circularMove)
  else applyMove fs sel moveToPath

/-- `handleDrop` (drag & drop): like `moveSelectedItems` but with an
additional guard rejecting a drop onto any selected item itself
(`selectedItems.some(item => item.path === targetPath)`), checked before
the cycle guard. -/
def handleDrop (fs sel : List Item) (targetPath : String) :
    List Item × MoveOutcome :=
  if sel.isEmpty then (fs, .noItems)
  else if sel.any (fun it => it.pathOf = targetPath) then (fs, .selfDrop)
  else if sel.any (fun it => it.isFolder && strStartsWith targetPath (it.pathOf ++ "/")) then
    (fs, .circularMove)
  else applyMove fs sel targetPath

/-- The `for (const selectedItem of selectedItems)` loop of
`deleteSelectedItems`: each iteration performs one `removeItem` (whose
filter callback increments the shared `deletedCount` on every match) and
one `Object.assign(newFileSystem, ...)`, i.e. one `jsRemovePass`. -/
def deleteLoop : List Item → List Item × Nat → List Item × Nat
  | [], acc => acc
  | s :: rest, acc =>
    deleteLoop rest (jsRemovePass s.pathOf acc.1, acc.2 + delCount s.pathOf acc.1)

/-- `deleteSelectedItems`: early return on an empty selection, otherwise the
per-item loop; the final count is reported in the success toast. -/
def deleteSelectedItems (fs sel : List Item) : List Item × Nat :=
  if sel.isEmpty then (fs, 0) else deleteLoop sel (fs, 0)

theorem deleteLoop_nil (acc : List Item × Nat) : deleteLoop [] acc = acc := rfl

theorem deleteLoop_cons (s : Item) (rest fs : List Item) (n : Nat) :
    deleteLoop (s :: rest) (fs, n) =
      deleteLoop rest (jsRemovePass s.pathOf fs, n + delCount s.pathOf fs) := rfl

/-! ## Server-side engine over database rows (the `"use server"` actions)

The `files` table is modelled as a flat list of rows.  The authorization
gate (`getUserSessionAndRoles` and the role checks) is performed before any
engine logic and is outside the claims under study; the operations below
model the behaviour for an authorized caller.  Ids are generated by the
database; each operation that inserts takes the generated id as `newId`.
`width`/`height`/`created_at`/`created_by` are never read by the mutation
logic and are omitted from the row model. -/

structure Row where
  id : String
  name : String
  ty : String
  path : String
  parent_id : Option String
  url : Option String
  size : Option Nat
deriving DecidableEq

/-- Supabase `.select(...).eq(...).single()`: succeeds with data exactly
when precisely one row matches; with zero or several matching rows it
reports an error and `data` is `null`. -/
def selectSingle (p : Row → Bool) (db : List Row) : Option Row :=
  match db.filter p with
  | [r] => some r
  | _ => none

/-- Error taxonomy of the server actions, mapped from their message strings:
`notFound` = "… not found", `duplicatePath` = "… already exists …",
`circularMove` = "Cannot move a folder into its own subfolder." -/
inductive DbOutcome where
  | ok
  | notFound
  | duplicatePath
  | circularMove
deriving DecidableEq

/-- Parent-path resolution of `renameItem`:
`item.parent_id ? (select path where id = parent_id).data?.path || "/" : "/"`
— a failed lookup or an empty (falsy) path both yield `"/"`. -/
def parentPathOf (db : List Row) (item : Row) : String :=
  match item.parent_id with
  | none => "/"
  | some pid =>
    match selectSingle (fun r => r.id == pid) db with
    | some p => if p.path = "" then "/" else p.path
    | none => "/"

/-- Tail of `createFolder` after parent resolution: duplicate check via
`.single()` on the computed path, then the row insert. -/
def createFolderAt (db : List Row) (name parentPath newId : String)
    (pid : Option String) : List Row × DbOutcome :=
  let newPath := childPath parentPath name
  match selectSingle (fun r => r.path == newPath) db with
  | some _ => (db, .duplicatePath)
  | none => (db ++ [⟨newId, name, "folder", newPath, pid, none, none⟩], .ok)

/-- Server action `createFolder(name, parentPath)`: resolves the parent row
(root maps to a `null` parent id; a parent path that does not match exactly
one row is "Parent folder not found"), then `createFolderAt`.  The name is
never validated and the parent row's kind is never checked. -/
def createFolder (db : List Row) (name parentPath newId : String) :
    List Row × DbOutcome :=
  if parentPath = "/" then createFolderAt db name parentPath newId none
  else
    match selectSingle (fun r => r.path == parentPath) db with
    | none => (db, .notFound)
    | some parentRow => createFolderAt db name parentPath newId (some parentRow.id)

/-- Tail of `uploadFile` after parent resolution: the new file path is
`(uploadPath === "/" ? "" : uploadPath) + "/" + file.name` with double
slashes collapsed; on a duplicate (exactly one matching row) the action
deletes the just-uploaded blob and fails; otherwise the row is inserted.
The blob upload itself is external — its resulting `url` is a parameter. -/
def uploadFileAt (db : List Row) (fileName : String) (fileSize : Nat)
    (uploadPath newId blobUrl : String) (pid : Option String) :
    List Row × DbOutcome :=
  let newFilePath :=
    collapseSlashes ((if uploadPath = "/" then "" else uploadPath) ++ "/" ++ fileName)
  match selectSingle (fun r => r.path == newFilePath) db with
  | some _ => (db, .duplicatePath)
  | none =>
    (db ++ [⟨newId, fileName, "image", newFilePath, pid, some blobUrl, some fileSize⟩], .ok)

/-- Server action `uploadFile(formData)`: parent resolution exactly as in
`createFolder`, then `uploadFileAt`. -/
def uploadFile (db : List Row) (fileName : String) (fileSize : Nat)
    (uploadPath newId blobUrl : String) : List Row × DbOutcome :=
  if uploadPath = "/" then uploadFileAt db fileName fileSize uploadPath newId blobUrl none
  else
    match selectSingle (fun r => r.path == uploadPath) db with
    | none => (db, .notFound)
    | some parentRow =>
      uploadFileAt db fileName fileSize uploadPath newId blobUrl (some parentRow.id)

/-- The cascading descendant-path update shared by `renameItem` and
`moveItem`: after the target row's own update, the rows matching
`LIKE item.path + "/%"` (modelled as the string-prefix test, exact for
paths free of SQL wildcards) each get `path.replace(item.path, newPath)`
(first occurrence).  `cfOk` models the outcome of the children `select`:
when it errors the source logs "Continue, but warn about potential
inconsistencies" and returns success without updating any descendant. -/
def cascadePaths (db1 : List Row) (oldPath newPath : String) (cfOk : Bool) :
    List Row × DbOutcome :=
  if cfOk then
    (db1.map (fun r =>
      if strStartsWith r.path (oldPath ++ "/") then
        { r with path := jsReplaceFirst r.path oldPath newPath }
      else r), .ok)
  else (db1, .ok)

/-- Tail of `renameItem` after the duplicate check: update `name` and `path`
of the target row, then cascade for folders. -/
def renameApply (db : List Row) (id newName : String) (item : Row)
    (newPath : String) (cfOk : Bool) : List Row × DbOutcome :=
  let db1 := db.map (fun r =>
    if r.id = id then { r with name := newName, path := newPath } else r)
  if item.ty = "folder" then cascadePaths db1 item.path newPath cfOk
  else (db1, .ok)

/-- Server action `renameItem(id, newName)`: fetch the target row
(`.single()`), resolve the parent path, compute the new path, fail with
`duplicatePath` when a DIFFERENT row already has that path, then apply.
The new name is never checked for emptiness. -/
def renameItem (db : List Row) (id newName : String) (cfOk : Bool) :
    List Row × DbOutcome :=
  match selectSingle (fun r => r.id == id) db with
  | none => (db, .notFound)
  | some item =>
    let newPath := childPath (parentPathOf db item) newName
    match selectSingle (fun r => r.path == newPath) db with
    | some e =>
      if e.id = id then renameApply db id newName item newPath cfOk
      else (db, .duplicatePath)
    | none => renameApply db id newName item newPath cfOk

/-- Tail of `moveItem` after all checks: update `parent_id` and `path` of
the target row, then cascade for folders. -/
def moveApply (db : List Row) (id : String) (item : Row)
    (newParentId : Option String) (newPath : String) (cfOk : Bool) :
    List Row × DbOutcome :=
  let db1 := db.map (fun r =>
    if r.id = id then { r with parent_id := newParentId, path := newPath } else r)
  if item.ty = "folder" then cascadePaths db1 item.path newPath cfOk
  else (db1, .ok)

/-- Tail of `moveItem` after target fetch and destination resolution:
the cycle guard `item.type === "folder" &&
newParentPath.startsWith(item.path + "/")` (note: a destination EQUAL to
the target's own path does not trip it), then the duplicate check, then
the update. -/
def moveChecked (db : List Row) (id : String) (item : Row)
    (newParentPath : String) (newParentId : Option String) (cfOk : Bool) :
    List Row × DbOutcome :=
  let newPath := childPath newParentPath item.name
  if item.ty = "folder" ∧ strStartsWith newParentPath (item.path ++ "/") then
    (db, .circularMove)
  else
    match selectSingle (fun r => r.path == newPath) db with
    | some e =>
      if e.id = id then moveApply db id item newParentId newPath cfOk
      else (db, .duplicatePath)
    | none => moveApply db id item newParentId newPath cfOk

/-- Server action `moveItem(id, newParentPath)`: fetch the target row,
resolve the destination folder row (before the cycle guard — `.single()`
semantics as everywhere), then `moveChecked`. -/
def moveItem (db : List Row) (id newParentPath : String) (cfOk : Bool) :
    List Row × DbOutcome :=
  match selectSingle (fun r => r.id == id) db with
  | none => (db, .notFound)
  | some item =>
    if newParentPath = "/" then moveChecked db id item newParentPath none cfOk
    else
      match selectSingle (fun r => r.path == newParentPath) db with
      | none => (db, .notFound)
      | some targetFolder =>
        moveChecked db id item newParentPath (some targetFolder.id) cfOk

/-! ## Claim theorems -/

/-- C1: the client-side `addFolder` performs no duplicate-path check, so
creating the same folder name twice at the root yields two distinct nodes
sharing the path `/B` — the path-uniqueness invariant is violated after a
mutation operation starting from a (trivially unique) empty tree. -/
theorem addFolder_twice_breaks_uniqueness :
    pathsOf ((addFolder (addFolder [] "B" "/" "1").1 "B" "/" "2").1) = ["/B", "/B"] ∧
    ¬ uniquePaths ((addFolder (addFolder [] "B" "/" "1").1 "B" "/" "2").1) := by
  constructor
  · simp [addFolder, jsTrim, childPath, pathsOf, flattenL, Item.pathOf]
  · simp [uniquePaths, addFolder, jsTrim, childPath, pathsOf, flattenL, Item.pathOf]

/-- C2 (amended): when the destination parent resolves (root, or exactly one
row at `parentPath`) and EXACTLY ONE existing row occupies the computed path
— which is the situation whenever path uniqueness holds, in particular right
after a first successful `createFolder` — the second `createFolder` fails
with `duplicatePath`, the table is unchanged, and exactly one row remains at
that path. -/
theorem createFolder_duplicate_rejected
    (db : List Row) (name parentPath newId : String)
    (hpar : parentPath = "/" ∨ ∃ p, selectSingle (fun r => r.path == parentPath) db = some p)
    (hocc : (db.filter (fun r => r.path == childPath parentPath name)).length = 1) :
    createFolder db name parentPath newId = (db, .duplicatePath) ∧
    ((createFolder db name parentPath newId).1.filter
      (fun r => r.path == childPath parentPath name)).length = 1 := by
  obtain ⟨r, hr⟩ := List.length_eq_one.mp hocc
  have hss : selectSingle (fun r => r.path == childPath parentPath name) db = some r := by
    rw [selectSingle, hr]
  have hat : ∀ pid, createFolderAt db name parentPath newId pid = (db, .duplicatePath) := by
    intro pid
    rw [createFolderAt]
    simp only [hss]
  have hcf : createFolder db name parentPath newId = (db, .duplicatePath) := by
    by_cases hroot : parentPath = "/"
    · rw [createFolder, if_pos hroot]
      exact hat none
    · rcases hpar with h | ⟨p, hp⟩
      · exact absurd h hroot
      · rw [createFolder, if_neg hroot, hp]
        exact hat (some p.id)
  exact ⟨hcf, by rw [hcf, hocc]⟩

/-- Witness for `createFolder_duplicate_rejected`: the spec's own scenario —
`/A/B` already exists (from a first `createFolder("B", "/A")`), the second
identical call fails and the table is untouched. -/
theorem createFolder_duplicate_rejected_witness :
    createFolder
      [⟨"1", "A", "folder", "/A", none, none, none⟩,
       ⟨"2", "B", "folder", "/A/B", some "1", none, none⟩]
      "B" "/A" "9" =
      ([⟨"1", "A", "folder", "/A", none, none, none⟩,
        ⟨"2", "B", "folder", "/A/B", some "1", none, none⟩], .duplicatePath) :=
  (createFolder_duplicate_rejected
    [⟨"1", "A", "folder", "/A", none, none, none⟩,
     ⟨"2", "B", "folder", "/A/B", some "1", none, none⟩]
    "B" "/A" "9"
    (Or.inr ⟨⟨"1", "A", "folder", "/A", none, none, none⟩, by decide⟩)
    (by decide)).1

/-- C2 (counterexample): with TWO pre-existing rows at `/A/B` the Supabase
`.single()` duplicate lookup errors out (`data` is `null`), so
`createFolder("B", "/A")` does NOT fail — it inserts a third row at the
occupied path, contradicting the claim for this tree. -/
theorem createFolder_double_occupancy_not_rejected :
    createFolder
      [⟨"1", "A", "folder", "/A", none, none, none⟩,
       ⟨"2", "B", "folder", "/A/B", some "1", none, none⟩,
       ⟨"3", "B", "folder", "/A/B", some "1", none, none⟩]
      "B" "/A" "9" =
      ([⟨"1", "A", "folder", "/A", none, none, none⟩,
        ⟨"2", "B", "folder", "/A/B", some "1", none, none⟩,
        ⟨"3", "B", "folder", "/A/B", some "1", none, none⟩,
        ⟨"9", "B", "folder", "/A/B", some "1", none, none⟩], .ok) ∧
    ((createFolder
      [⟨"1", "A", "folder", "/A", none, none, none⟩,
       ⟨"2", "B", "folder", "/A/B", some "1", none, none⟩,
       ⟨"3", "B", "folder", "/A/B", some "1", none, none⟩]
      "B" "/A" "9").1.filter (fun r => r.path == "/A/B")).length = 3 := by
  decide

/-- C7 (amended): the SERVER-side `uploadFile` does reject a duplicate: when
the parent resolves and exactly one existing row occupies the computed file
path, the action fails with `duplicatePath` and the table — the pre-existing
node, its attributes — is unchanged and no second row is inserted (the
just-uploaded blob is deleted by the source before returning). -/
theorem uploadFile_duplicate_rejected
    (db : List Row) (fileName : String) (fileSize : Nat)
    (uploadPath newId blobUrl : String)
    (hpar : uploadPath = "/" ∨ ∃ p, selectSingle (fun r => r.path == uploadPath) db = some p)
    (hocc : (db.filter (fun r => r.path ==
        collapseSlashes ((if uploadPath = "/" then "" else uploadPath) ++ "/" ++ fileName))).length
      = 1) :
    uploadFile db fileName fileSize uploadPath newId blobUrl = (db, .duplicatePath) := by
  obtain ⟨r, hr⟩ := List.length_eq_one.mp hocc
  have hss : selectSingle (fun r => r.path ==
      collapseSlashes ((if uploadPath = "/" then "" else uploadPath) ++ "/" ++ fileName)) db
      = some r := by
    rw [selectSingle, hr]
  have hat : ∀ pid, uploadFileAt db fileName fileSize uploadPath newId blobUrl pid
      = (db, .duplicatePath) := by
    intro pid
    rw [uploadFileAt]
    simp only [hss]
  by_cases hroot : uploadPath = "/"
  · rw [uploadFile, if_pos hroot]
    exact hat none
  · rcases hpar with h | ⟨p, hp⟩
    · exact absurd h hroot
    · rw [uploadFile, if_neg hroot, hp]
      exact hat (some p.id)

/-- Witness for `uploadFile_duplicate_rejected`: uploading `img.png` to a
folder `/pics` that already holds `/pics/img.png` fails and changes no row. -/
theorem uploadFile_duplicate_rejected_witness :
    uploadFile
      [⟨"1", "pics", "folder", "/pics", none, none, none⟩,
       ⟨"2", "img.png", "image", "/pics/img.png", some "1", some "u0", some 7⟩]
      "img.png" 5 "/pics" "9" "u1" =
      ([⟨"1", "pics", "folder", "/pics", none, none, none⟩,
        ⟨"2", "img.png", "image", "/pics/img.png", some "1", some "u0", some 7⟩],
       .duplicatePath) :=
  uploadFile_duplicate_rejected
    [⟨"1", "pics", "folder", "/pics", none, none, none⟩,
     ⟨"2", "img.png", "image", "/pics/img.png", some "1", some "u0", some 7⟩]
    "img.png" 5 "/pics" "9" "u1"
    (Or.inr ⟨⟨"1", "pics", "folder", "/pics", none, none, none⟩, by decide⟩)
    (by decide)

/-- C7 (counterexample): the CLIENT-side `uploadImages` performs no
duplicate check at all — uploading `img.png` to the root of a tree that
already holds `/img.png` silently inserts a second node at the occupied
path instead of failing. -/
theorem uploadImages_duplicate_inserted :
    uploadImages [Item.image "0" "img.png" "/img.png" (some "u0") (some 7)]
      [⟨"img.png", 5, "1", "u1"⟩] "/" =
      [Item.image "0" "img.png" "/img.png" (some "u0") (some 7),
       Item.image "1" "img.png" "/img.png" (some "u1") (some 5)] ∧
    ¬ uniquePaths
      (uploadImages [Item.image "0" "img.png" "/img.png" (some "u0") (some 7)]
        [⟨"img.png", 5, "1", "u1"⟩] "/") := by
  constructor
  · simp [uploadImages, collapseSlashes, collapseSlashesL]
  · simp [uploadImages, collapseSlashes, collapseSlashesL, uniquePaths, pathsOf,
      flattenL, Item.pathOf]

/-- C3 (amended): the cycle guard of `moveSelectedItems` fires exactly when
the destination begins with a selected folder's `path + "/"`; in that case
the WHOLE batch is rejected with `circularMove` before any mutation — the
returned tree is the input tree, byte for byte — and no destination
existence check is involved. -/
theorem moveSelectedItems_circular_rejected
    (fs sel : List Item) (moveToPath : String) (t : Item)
    (hmem : t ∈ sel) (hf : t.isFolder = true)
    (hpre : strStartsWith moveToPath (t.pathOf ++ "/") = true) :
    moveSelectedItems fs sel moveToPath = (fs, .circularMove) := by
  have hne : sel.isEmpty = false := by
    cases sel with
    | nil => cases hmem
    | cons a l => rfl
  have hany : sel.any
      (fun it => it.isFolder && strStartsWith moveToPath (it.pathOf ++ "/")) = true := by
    rw [List.any_eq_true]
    exact ⟨t, hmem, by rw [hf, hpre]; rfl⟩
  rw [moveSelectedItems, if_neg (by simp [hne]), if_pos hany]

/-- Witness for `moveSelectedItems_circular_rejected`: moving `/A` into its
own subfolder `/A/sub` is rejected and the tree is unchanged. -/
theorem moveSelectedItems_circular_rejected_witness :
    moveSelectedItems
      [Item.folder "1" "A" "/A" [Item.folder "2" "sub" "/A/sub" []]]
      [Item.folder "1" "A" "/A" [Item.folder "2" "sub" "/A/sub" []]]
      "/A/sub" =
      ([Item.folder "1" "A" "/A" [Item.folder "2" "sub" "/A/sub" []]], .circularMove) :=
  moveSelectedItems_circular_rejected _ _ _
    (Item.folder "1" "A" "/A" [Item.folder "2" "sub" "/A/sub" []])
    (by simp) (by decide) (by decide)

/-- C3 (counterexample): a destination EQUAL to the target folder's own path
does not trip either cycle guard (`startsWith(item.path + "/")` is false),
so the claim's "fails with CircularMove and leaves the tree unchanged" is
false for `d = t.path`: the client `moveSelectedItems` "succeeds" and nests
a copy of `/A` inside itself, and the server `moveItem` "succeeds", making
the folder its own parent with a mangled path. -/
theorem move_to_own_path_not_circular :
    moveSelectedItems [Item.folder "1" "A" "/A" []] [Item.folder "1" "A" "/A" []] "/A" =
      ([Item.folder "1" "A" "/A" [Item.folder "1" "A" "/A/A" []]], .moved 1) ∧
    moveItem [⟨"1", "A", "folder", "/A", none, none, none⟩] "1" "/A" true =
      ([⟨"1", "A", "folder", "/A/A/A", some "1", none, none⟩], .ok) := by
  constructor
  · simp [moveSelectedItems, applyMove, removedOf, removedDeep, lastMatch, jsRemovePass,
      removeAllP, cleanseItem, updatePaths, updatePathsList, addItemsAt, childPath,
      strStartsWith, startsWithL, Item.pathOf, Item.isFolder]
  · decide

/-- C4: with destination equal to the selected folder's own path,
`handleDrop` does reject ("Cannot move items into themselves", tree
unchanged), but the Move-dialog `moveSelectedItems` lacks that guard: it
proceeds, and — because `Object.assign` leaves the top-level array intact
while `addItemsToTarget` still finds the not-actually-removed folder — it
re-parents a copy of the folder into itself instead of rejecting. -/
theorem moveSelectedItems_self_destination_mutates :
    handleDrop
      [Item.folder "7" "D" "/D" [Item.image "8" "d.png" "/D/d.png" (some "u") (some 3)]]
      [Item.folder "7" "D" "/D" [Item.image "8" "d.png" "/D/d.png" (some "u") (some 3)]]
      "/D" =
      ([Item.folder "7" "D" "/D" [Item.image "8" "d.png" "/D/d.png" (some "u") (some 3)]],
       .selfDrop) ∧
    moveSelectedItems
      [Item.folder "7" "D" "/D" [Item.image "8" "d.png" "/D/d.png" (some "u") (some 3)]]
      [Item.folder "7" "D" "/D" [Item.image "8" "d.png" "/D/d.png" (some "u") (some 3)]]
      "/D" =
      ([Item.folder "7" "D" "/D"
         [Item.image "8" "d.png" "/D/d.png" (some "u") (some 3),
          Item.folder "7" "D" "/D/D"
            [Item.image "8" "d.png" "/D/D/d.png" (some "u") (some 3)]]],
       .moved 1) := by
  constructor
  · simp [handleDrop, Item.pathOf]
  · simp [moveSelectedItems, applyMove, removedOf, removedDeep, lastMatch, jsRemovePass,
      removeAllP, cleanseItem, updatePaths, updatePathsList, addItemsAt, childPath,
      strStartsWith, startsWithL, Item.pathOf, Item.isFolder]

/-- C8: deleting the spec's own example — top-level folder `/A` holding leaf
`/A/img.png` and subfolder `/A/B` — via the client `deleteSelectedItems`
removes NOTHING: the filtered top-level array is copied back with
`Object.assign`, which cannot shrink the target array, so the folder
survives at its old index while the toast still reports "Deleted 1 item";
all three ids are still present in the flattened tree. -/
theorem deleteSelectedItems_top_level_not_removed :
    deleteSelectedItems
      [Item.folder "1" "A" "/A"
        [Item.image "2" "img.png" "/A/img.png" (some "u") (some 4),
         Item.folder "3" "B" "/A/B" []]]
      [Item.folder "1" "A" "/A"
        [Item.image "2" "img.png" "/A/img.png" (some "u") (some 4),
         Item.folder "3" "B" "/A/B" []]] =
      ([Item.folder "1" "A" "/A"
         [Item.image "2" "img.png" "/A/img.png" (some "u") (some 4),
          Item.folder "3" "B" "/A/B" []]], 1) ∧
    (flattenL (deleteSelectedItems
      [Item.folder "1" "A" "/A"
        [Item.image "2" "img.png" "/A/img.png" (some "u") (some 4),
         Item.folder "3" "B" "/A/B" []]]
      [Item.folder "1" "A" "/A"
        [Item.image "2" "img.png" "/A/img.png" (some "u") (some 4),
         Item.folder "3" "B" "/A/B" []]]).1).map Item.idOf = ["1", "2", "3"] := by
  have h1 : removeAllP "/A"
      [Item.folder "1" "A" "/A"
        [Item.image "2" "img.png" "/A/img.png" (some "u") (some 4),
         Item.folder "3" "B" "/A/B" []]] = [] := by
    simp [removeAllP]
  have h2 : jsRemovePass "/A"
      [Item.folder "1" "A" "/A"
        [Item.image "2" "img.png" "/A/img.png" (some "u") (some 4),
         Item.folder "3" "B" "/A/B" []]] =
      [Item.folder "1" "A" "/A"
        [Item.image "2" "img.png" "/A/img.png" (some "u") (some 4),
         Item.folder "3" "B" "/A/B" []]] := by
    simp only [jsRemovePass]
    rw [h1]
    simp [cleanseItem, Item.pathOf]
  have h3 : delCount "/A"
      [Item.folder "1" "A" "/A"
        [Item.image "2" "img.png" "/A/img.png" (some "u") (some 4),
         Item.folder "3" "B" "/A/B" []]] = 1 := by
    simp [delCount, Item.pathOf]
  have heq : deleteSelectedItems
      [Item.folder "1" "A" "/A"
        [Item.image "2" "img.png" "/A/img.png" (some "u") (some 4),
         Item.folder "3" "B" "/A/B" []]]
      [Item.folder "1" "A" "/A"
        [Item.image "2" "img.png" "/A/img.png" (some "u") (some 4),
         Item.folder "3" "B" "/A/B" []]] =
      ([Item.folder "1" "A" "/A"
         [Item.image "2" "img.png" "/A/img.png" (some "u") (some 4),
          Item.folder "3" "B" "/A/B" []]], 1) := by
    show deleteLoop
      [Item.folder "1" "A" "/A"
        [Item.image "2" "img.png" "/A/img.png" (some "u") (some 4),
         Item.folder "3" "B" "/A/B" []]]
      ([Item.folder "1" "A" "/A"
        [Item.image "2" "img.png" "/A/img.png" (some "u") (some 4),
         Item.folder "3" "B" "/A/B" []]], 0) = _
    rw [deleteLoop_cons]
    rw [show (Item.folder "1" "A" "/A"
        [Item.image "2" "img.png" "/A/img.png" (some "u") (some 4),
         Item.folder "3" "B" "/A/B" []]).pathOf = "/A" from rfl]
    rw [h2, h3, deleteLoop_nil]
  refine ⟨heq, ?_⟩
  rw [heq]
  simp [flattenL, Item.idOf]

/-- C10 (counterexample): with the selected folder `/A` sitting at the END
of the top level, `removeItem` filters it out and counts it, but
`Object.assign` restores it from the stale trailing slot — the reported
count is 1 while the number of selected items actually removed is 0 (the
returned tree is the input tree). -/
theorem deleteSelectedItems_count_without_removal :
    deleteSelectedItems
      [Item.image "9" "c.png" "/c.png" (some "u") (some 2),
       Item.folder "4" "A" "/A" [Item.image "5" "x.png" "/A/x.png" none none]]
      [Item.folder "4" "A" "/A" [Item.image "5" "x.png" "/A/x.png" none none]] =
      ([Item.image "9" "c.png" "/c.png" (some "u") (some 2),
        Item.folder "4" "A" "/A" [Item.image "5" "x.png" "/A/x.png" none none]], 1) := by
  have h1 : removeAllP "/A"
      [Item.image "9" "c.png" "/c.png" (some "u") (some 2),
       Item.folder "4" "A" "/A" [Item.image "5" "x.png" "/A/x.png" none none]] =
      [Item.image "9" "c.png" "/c.png" (some "u") (some 2)] := by
    simp [removeAllP]
  have h2 : jsRemovePass "/A"
      [Item.image "9" "c.png" "/c.png" (some "u") (some 2),
       Item.folder "4" "A" "/A" [Item.image "5" "x.png" "/A/x.png" none none]] =
      [Item.image "9" "c.png" "/c.png" (some "u") (some 2),
       Item.folder "4" "A" "/A" [Item.image "5" "x.png" "/A/x.png" none none]] := by
    simp only [jsRemovePass]
    rw [h1]
    simp [cleanseItem, Item.pathOf]
  have h3 : delCount "/A"
      [Item.image "9" "c.png" "/c.png" (some "u") (some 2),
       Item.folder "4" "A" "/A" [Item.image "5" "x.png" "/A/x.png" none none]] = 1 := by
    simp [delCount, Item.pathOf]
  show deleteLoop
      [Item.folder "4" "A" "/A" [Item.image "5" "x.png" "/A/x.png" none none]]
      ([Item.image "9" "c.png" "/c.png" (some "u") (some 2),
        Item.folder "4" "A" "/A" [Item.image "5" "x.png" "/A/x.png" none none]], 0) = _
  rw [deleteLoop_cons]
  rw [show (Item.folder "4" "A" "/A"
      [Item.image "5" "x.png" "/A/x.png" none none]).pathOf = "/A" from rfl]
  rw [h2, h3, deleteLoop_nil]

/-- Number of nodes of the flattened tree having path `p` (how often `p` is
occupied, in the sense of the spec's `flatten()`). -/
def flatCountAt (p : String) (fs : List Item) : Nat :=
  ((flattenL fs).filter (fun n => n.pathOf = p)).length

theorem flatCountAt_nil (p : String) : flatCountAt p [] = 0 := by
  simp [flatCountAt, flattenL]

theorem flatCountAt_cons_image (p i n q : String) (u : Option String) (s : Option Nat)
    (rest : List Item) :
    flatCountAt p (.image i n q u s :: rest) =
      (if q = p then 1 else 0) + flatCountAt p rest := by
  by_cases h : q = p <;> simp [flatCountAt, flattenL, Item.pathOf, h] <;> omega

theorem flatCountAt_cons_folder (p i n q : String) (cs rest : List Item) :
    flatCountAt p (.folder i n q cs :: rest) =
      (if q = p then 1 else 0) + (flatCountAt p cs + flatCountAt p rest) := by
  by_cases h : q = p <;>
    simp [flatCountAt, flattenL, Item.pathOf, h, List.filter_append] <;> omega

/-- The `deletedCount` increments of one `removeItem` traversal never exceed
the number of occupants of the target path: only outermost matches count. -/
theorem delCount_le_flatCountAt (p : String) : (items : List Item) →
    delCount p items ≤ flatCountAt p items
  | [] => by simp [delCount, flatCountAt_nil]
  | .image i n q u s :: rest => by
    have ih := delCount_le_flatCountAt p rest
    rw [flatCountAt_cons_image]
    by_cases h : q = p <;> simp [delCount, h] <;> omega
  | .folder i n q cs :: rest => by
    have ih1 := delCount_le_flatCountAt p cs
    have ih2 := delCount_le_flatCountAt p rest
    rw [flatCountAt_cons_folder]
    by_cases h : q = p <;> simp [delCount, h] <;> omega

/-- If the target path is occupied at all, at least one `deletedCount++`
fires (the outermost occupant is always reached by the filter). -/
theorem delCount_pos_of_flatCountAt_pos (p : String) : (items : List Item) →
    1 ≤ flatCountAt p items → 1 ≤ delCount p items
  | [] => by simp [flatCountAt_nil]
  | .image i n q u s :: rest => by
    intro h
    rw [flatCountAt_cons_image] at h
    by_cases hq : q = p
    · simp [delCount, hq]
    · simp [hq] at h
      have := delCount_pos_of_flatCountAt_pos p rest h
      simp [delCount, hq]
      omega
  | .folder i n q cs :: rest => by
    intro h
    rw [flatCountAt_cons_folder] at h
    by_cases hq : q = p
    · simp [delCount, hq]
    · simp [hq] at h
      by_cases hcs : 1 ≤ flatCountAt p cs
      · have := delCount_pos_of_flatCountAt_pos p cs hcs
        simp [delCount, hq]
        omega
      · have hrest : 1 ≤ flatCountAt p rest := by omega
        have := delCount_pos_of_flatCountAt_pos p rest hrest
        simp [delCount, hq]
        omega

/-- C10 (amended): for a single selected item whose path is occupied by
exactly one node of the tree (the situation under path uniqueness), the
count reported by `deleteSelectedItems` is exactly 1 — descendants removed
with a selected folder's subtree are never counted, however many there are.
(Whether the counted node is actually removed is a separate matter: a
top-level target survives, see the counterexample.) -/
theorem deleteSelectedItems_count_excludes_descendants
    (fs : List Item) (f : Item)
    (hone : flatCountAt f.pathOf fs = 1) :
    (deleteSelectedItems fs [f]).2 = 1 := by
  have h1 := delCount_le_flatCountAt f.pathOf fs
  have h2 := delCount_pos_of_flatCountAt_pos f.pathOf fs (by omega)
  have hc : delCount f.pathOf fs = 1 := by omega
  show (deleteLoop [f] (fs, 0)).2 = 1
  rw [deleteLoop_cons, deleteLoop_nil, hc]

/-- Witness for `deleteSelectedItems_count_excludes_descendants`: deleting
the nested folder `/T/A`, which carries two descendants, reports count 1. -/
theorem deleteSelectedItems_count_excludes_descendants_witness :
    (deleteSelectedItems
      [Item.folder "1" "T" "/T"
        [Item.folder "2" "A" "/T/A"
          [Item.image "3" "x.png" "/T/A/x.png" none none,
           Item.folder "4" "B" "/T/A/B" []]]]
      [Item.folder "2" "A" "/T/A"
        [Item.image "3" "x.png" "/T/A/x.png" none none,
         Item.folder "4" "B" "/T/A/B" []]]).2 = 1 :=
  deleteSelectedItems_count_excludes_descendants _ _
    (by simp [flatCountAt, flattenL, Item.pathOf])

/-- C6: `renameItem` has no rollback: when the descendant `select` fails
after the target row was already updated (`cfOk = false`; the source logs
"Continue, but warn about potential inconsistencies"), the action still
returns success while the folder is at `/B` and its descendant is left at
the stale `/A/x.png` — a partially-updated state visible to the caller,
as the third conjunct contrasts with the complete cascade of a failure-free
run. -/
theorem renameItem_no_rollback_on_cascade_failure :
    renameItem
      [⟨"1", "A", "folder", "/A", none, none, none⟩,
       ⟨"2", "x.png", "image", "/A/x.png", some "1", some "u", some 3⟩]
      "1" "B" false =
      ([⟨"1", "B", "folder", "/B", none, none, none⟩,
        ⟨"2", "x.png", "image", "/A/x.png", some "1", some "u", some 3⟩], .ok) ∧
    strStartsWith "/A/x.png" ("/B" ++ "/") = false ∧
    renameItem
      [⟨"1", "A", "folder", "/A", none, none, none⟩,
       ⟨"2", "x.png", "image", "/A/x.png", some "1", some "u", some 3⟩]
      "1" "B" true =
      ([⟨"1", "B", "folder", "/B", none, none, none⟩,
        ⟨"2", "x.png", "image", "/B/x.png", some "1", some "u", some 3⟩], .ok) := by
  refine ⟨by decide, by decide, by decide⟩

/-- Spec-side description of the rename cascade, written from the spec's
words: the target row gets the new name and the new path; every descendant
row — one whose path extends the old folder path by a `/` — keeps its id,
name, kind and parent reference and has exactly the old path prefix
replaced by the new one; every other row is untouched. -/
def renameCascadeSpec (id newName newPath oldPath : String) (r : Row) : Row :=
  if r.id = id then { r with name := newName, path := newPath }
  else if strStartsWith r.path (oldPath ++ "/") then
    { r with path := newPath ++ strDrop r.path oldPath.length }
  else r

/-- C5: a successful folder rename (`renameItem`, children select succeeds)
transforms the table exactly as the spec's cascade describes: the
first-occurrence `path.replace(oldPath, newPath)` of the source coincides
with the prefix rewrite on every descendant, and descendants' `parent_id`,
`name`, kind and attributes are untouched.  `hnc` excludes the degenerate
new path that would land inside the folder's own old subtree (impossible
for a slash-free new name). -/
theorem renameItem_folder_cascade
    (db : List Row) (id newName : String) (item : Row) (newPath : String)
    (hfind : selectSingle (fun r => r.id == id) db = some item)
    (hty : item.ty = "folder")
    (hnp : newPath = childPath (parentPathOf db item) newName)
    (hdup : ∀ e, selectSingle (fun r => r.path == newPath) db = some e → e.id = id)
    (hnc : strStartsWith newPath (item.path ++ "/") = false) :
    renameItem db id newName true =
      (db.map (renameCascadeSpec id newName newPath item.path), .ok) := by
  subst hnp
  have happ : renameApply db id newName item
      (childPath (parentPathOf db item) newName) true =
      (db.map (renameCascadeSpec id newName
        (childPath (parentPathOf db item) newName) item.path), .ok) := by
    simp only [renameApply, if_pos hty, cascadePaths, if_true, List.map_map]
    congr 1
    refine congrArg (fun F => List.map F db) (funext fun r => ?_)
    simp only [Function.comp]
    by_cases hr : r.id = id
    · simp [renameCascadeSpec, hr, hnc]
    · simp only [if_neg hr, renameCascadeSpec]
      by_cases hpre : strStartsWith r.path (item.path ++ "/") = true
      · rw [if_pos hpre, if_pos hpre,
          jsReplaceFirst_of_strStartsWith _ (strStartsWith_of_append hpre)]
      · rw [if_neg hpre, if_neg hpre]
  have hdisp : renameItem db id newName true =
      renameApply db id newName item (childPath (parentPathOf db item) newName) true := by
    rw [renameItem.eq_def, hfind]
    cases hsel : selectSingle
        (fun r => r.path == childPath (parentPathOf db item) newName) db with
    | none => simp only [hsel]
    | some e => simp only [hsel, if_pos (hdup e hsel)]
  exact hdisp.trans happ

/-- Witness for `renameItem_folder_cascade`: the spec's rename-cascade
scenario — renaming folder `/A` (with descendant `/A/x/y.png` two levels
down) to `B` yields `/B/x/y.png` with the whole `parent_id` chain intact. -/
theorem renameItem_folder_cascade_witness :
    renameItem
      [⟨"1", "A", "folder", "/A", none, none, none⟩,
       ⟨"2", "x", "folder", "/A/x", some "1", none, none⟩,
       ⟨"3", "y.png", "image", "/A/x/y.png", some "2", some "u", some 3⟩]
      "1" "B" true =
      ([⟨"1", "B", "folder", "/B", none, none, none⟩,
        ⟨"2", "x", "folder", "/B/x", some "1", none, none⟩,
        ⟨"3", "y.png", "image", "/B/x/y.png", some "2", some "u", some 3⟩], .ok) := by
  have hnone : selectSingle (fun r => r.path == "/B")
      [⟨"1", "A", "folder", "/A", none, none, none⟩,
       ⟨"2", "x", "folder", "/A/x", some "1", none, none⟩,
       ⟨"3", "y.png", "image", "/A/x/y.png", some "2", some "u", some 3⟩] = none := by
    decide
  have h := renameItem_folder_cascade
      [⟨"1", "A", "folder", "/A", none, none, none⟩,
       ⟨"2", "x", "folder", "/A/x", some "1", none, none⟩,
       ⟨"3", "y.png", "image", "/A/x/y.png", some "2", some "u", some 3⟩]
      "1" "B" ⟨"1", "A", "folder", "/A", none, none, none⟩ "/B"
      (by decide) (by decide) (by decide)
      (fun e he => by rw [hnone] at he; cases he)
      (by decide)
  rw [h]
  decide

/-- C9: over any displayed list, a plain click on `x` (single click, no
modifiers) makes the selection exactly `[x]` and sets the range anchor to
`x`; a subsequent shift-click on `y` — with the anchor and `y` both found
in the displayed list, at indices `i` and `j` — selects the contiguous
slice of the displayed list between `i` and `j` inclusive (whichever is
larger) and leaves the anchor on `x`. -/
theorem handleItemClick_range
    (displayed : List Item) (st : ExplorerSel) (x y : Item) (i j : Nat)
    (hxid : x.idOf ≠ "")
    (hx : displayed.findIdx? (fun it => it.idOf = x.idOf) = some i)
    (hy : displayed.findIdx? (fun it => it.idOf = y.idOf) = some j) :
    (handleItemClick ⟨1, false, false, false⟩ x st displayed).selectedItems = [x] ∧
    (handleItemClick ⟨1, false, false, false⟩ x st displayed).lastSelectedId = some x.idOf ∧
    (handleItemClick ⟨1, false, false, true⟩ y
        (handleItemClick ⟨1, false, false, false⟩ x st displayed) displayed).selectedItems =
      (displayed.drop (min i j)).take (max i j + 1 - min i j) ∧
    (handleItemClick ⟨1, false, false, true⟩ y
        (handleItemClick ⟨1, false, false, false⟩ x st displayed) displayed).lastSelectedId =
      some x.idOf := by
  have h1 : handleItemClick ⟨1, false, false, false⟩ x st displayed =
      { st with selectedItem := some x, selectedItems := [x],
                lastSelectedId := some x.idOf } := by
    simp [handleItemClick]
  rw [h1]
  have h2 : handleItemClick ⟨1, false, false, true⟩ y
      { st with selectedItem := some x, selectedItems := [x],
                lastSelectedId := some x.idOf } displayed =
      { st with selectedItem := some y,
                selectedItems := (displayed.drop (min i j)).take (max i j + 1 - min i j),
                lastSelectedId := some x.idOf } := by
    simp [handleItemClick, hxid, hx, hy]
  refine ⟨rfl, rfl, ?_, ?_⟩ <;> rw [h2]

/-- Witness for `handleItemClick_range`: with displayed order `[a, b, c, d]`,
plain-clicking `b` and then shift-clicking `d` selects `[b, c, d]` with the
anchor still on `b`. -/
theorem handleItemClick_range_witness :
    (handleItemClick ⟨1, false, false, false⟩
      (Item.image "b" "b.png" "/b.png" none none)
      ⟨"/", none, [], none⟩
      [Item.image "a" "a.png" "/a.png" none none,
       Item.image "b" "b.png" "/b.png" none none,
       Item.image "c" "c.png" "/c.png" none none,
       Item.image "d" "d.png" "/d.png" none none]).selectedItems =
      [Item.image "b" "b.png" "/b.png" none none] ∧
    (handleItemClick ⟨1, false, false, true⟩
      (Item.image "d" "d.png" "/d.png" none none)
      (handleItemClick ⟨1, false, false, false⟩
        (Item.image "b" "b.png" "/b.png" none none)
        ⟨"/", none, [], none⟩
        [Item.image "a" "a.png" "/a.png" none none,
         Item.image "b" "b.png" "/b.png" none none,
         Item.image "c" "c.png" "/c.png" none none,
         Item.image "d" "d.png" "/d.png" none none])
      [Item.image "a" "a.png" "/a.png" none none,
       Item.image "b" "b.png" "/b.png" none none,
       Item.image "c" "c.png" "/c.png" none none,
       Item.image "d" "d.png" "/d.png" none none]).selectedItems =
      [Item.image "b" "b.png" "/b.png" none none,
       Item.image "c" "c.png" "/c.png" none none,
       Item.image "d" "d.png" "/d.png" none none] ∧
    (handleItemClick ⟨1, false, false, true⟩
      (Item.image "d" "d.png" "/d.png" none none)
      (handleItemClick ⟨1, false, false, false⟩
        (Item.image "b" "b.png" "/b.png" none none)
        ⟨"/", none, [], none⟩
        [Item.image "a" "a.png" "/a.png" none none,
         Item.image "b" "b.png" "/b.png" none none,
         Item.image "c" "c.png" "/c.png" none none,
         Item.image "d" "d.png" "/d.png" none none])
      [Item.image "a" "a.png" "/a.png" none none,
       Item.image "b" "b.png" "/b.png" none none,
       Item.image "c" "c.png" "/c.png" none none,
       Item.image "d" "d.png" "/d.png" none none]).lastSelectedId = some "b" := by
  have h := handleItemClick_range
    [Item.image "a" "a.png" "/a.png" none none,
     Item.image "b" "b.png" "/b.png" none none,
     Item.image "c" "c.png" "/c.png" none none,
     Item.image "d" "d.png" "/d.png" none none]
    ⟨"/", none, [], none⟩
    (Item.image "b" "b.png" "/b.png" none none)
    (Item.image "d" "d.png" "/d.png" none none)
    1 3 (by decide) (by decide) (by decide)
  refine ⟨h.1, ?_, h.2.2.2⟩
  rw [h.2.2.1]
  rfl

end ImgLib
